import Mathlib

/-!
Verification development for the pre-mayhem bot core.

This file shallowly embeds the parts of the TypeScript source that the
checked properties talk about:

* the SQLite-backed store (`db.ts`): holder rows with merge-upsert
  semantics, rounds, execution locks, the `bot_state` key/value table
  (heartbeat, safe mode, RPC error counter) and the scan cursor;
* the balance refresher (`balances.ts` / `updateHolderBalance`);
* the incremental/bootstrap scanner (`scan.ts`);
* the scoring and lottery module (`scoring.ts`): the string hash behind
  `createSeed`, the Mulberry32 PRNG and `selectWinners`;
* the buy job (`buys.ts`), the reward-round arithmetic (`rewards.ts`,
  `config.ts`), the execution engine (`execution.ts`) and the status
  server rate limiter (`status-server.ts`).

Conventions: machine timestamps are `Int` seconds (or `Nat` milliseconds
for the rate limiter, mirroring `Date.now()`); raw token amounts are the
numeric values of the canonical decimal strings the code stores, here
`Nat`; JavaScript floating-point quantities that the checked properties
never round (SOL amounts, weights) are carried as `Rat`; fallible
external calls are `Except`/oracle parameters.
-/

namespace PreMayhem

/-! ### Generic key/value table (SQLite tables with TEXT key / TEXT value:
`bot_state`, `scan_state`). An upsert replaces the value in place, an
absent key is appended, deletion filters the key out. -/

abbrev KV := List (String × String)

def kvGet (m : KV) (k : String) : Option String :=
  (List.find? (fun p => p.1 == k) m).map (·.2)

def kvSet (m : KV) (k v : String) : KV :=
  match m with
  | [] => [(k, v)]
  | p :: rest => if p.1 == k then (k, v) :: rest else p :: kvSet rest k v

def kvDelete (m : KV) (k : String) : KV :=
  List.filter (fun p => !(p.1 == k)) m

/-! ### Holder rows (`db.ts` table `holders`).

`last_balance_raw` is stored by the code as the canonical decimal string
of a non-negative BigInt; we carry the numeric value as `Option Nat`
(`none` = SQL NULL).  `streak_rounds` and `is_blacklisted` are INTEGER
with default 0, `twb_score` and the cumulative buy columns are REAL with
default 0. -/

structure HolderRow where
  wallet : String
  first_seen_ts : Option Int
  last_seen_ts : Option Int
  last_balance_raw : Option Nat
  last_balance_check_ts : Option Int
  last_decrease_ts : Option Int
  continuity_start_ts : Option Int
  streak_rounds : Nat
  twb_score : Rat
  cumulative_buy_sol : Rat
  cumulative_buy_sol_low_confidence : Rat
  is_blacklisted : Nat
  deriving Repr, DecidableEq

/-- One field set of a partial update, as passed to `upsertHolder`
(`Partial<HolderRow>` in the source): an outer `none` means "column not
mentioned", `some v` means "set the column to `v`". -/
structure HolderUpdates where
  first_seen_ts : Option (Option Int) := none
  last_seen_ts : Option (Option Int) := none
  last_balance_raw : Option (Option Nat) := none
  last_balance_check_ts : Option (Option Int) := none
  last_decrease_ts : Option (Option Int) := none
  continuity_start_ts : Option (Option Int) := none
  streak_rounds : Option Nat := none
  twb_score : Option Rat := none
  cumulative_buy_sol : Option Rat := none
  cumulative_buy_sol_low_confidence : Option Rat := none
  is_blacklisted : Option Nat := none

/-- Merge a partial update into a row (the `ON CONFLICT ... DO UPDATE SET
col = excluded.col` clause of `upsertHolder`). -/
def applyUpdates (r : HolderRow) (u : HolderUpdates) : HolderRow :=
  { r with
    first_seen_ts := u.first_seen_ts.getD r.first_seen_ts
    last_seen_ts := u.last_seen_ts.getD r.last_seen_ts
    last_balance_raw := u.last_balance_raw.getD r.last_balance_raw
    last_balance_check_ts := u.last_balance_check_ts.getD r.last_balance_check_ts
    last_decrease_ts := u.last_decrease_ts.getD r.last_decrease_ts
    continuity_start_ts := u.continuity_start_ts.getD r.continuity_start_ts
    streak_rounds := u.streak_rounds.getD r.streak_rounds
    twb_score := u.twb_score.getD r.twb_score
    cumulative_buy_sol := u.cumulative_buy_sol.getD r.cumulative_buy_sol
    cumulative_buy_sol_low_confidence :=
      u.cumulative_buy_sol_low_confidence.getD r.cumulative_buy_sol_low_confidence
    is_blacklisted := u.is_blacklisted.getD r.is_blacklisted }

/-- A freshly inserted row: every column not mentioned by the INSERT takes
its schema default (NULL for the nullable columns, 0 for the counters). -/
def emptyHolderRow (w : String) : HolderRow :=
  { wallet := w
    first_seen_ts := none
    last_seen_ts := none
    last_balance_raw := none
    last_balance_check_ts := none
    last_decrease_ts := none
    continuity_start_ts := none
    streak_rounds := 0
    twb_score := 0
    cumulative_buy_sol := 0
    cumulative_buy_sol_low_confidence := 0
    is_blacklisted := 0 }

abbrev Holders := List HolderRow

/-- SELECT * FROM holders WHERE wallet = ? -/
def getHolder (hs : Holders) (w : String) : Option HolderRow :=
  List.find? (fun r => r.wallet == w) hs

/-- INSERT ... ON CONFLICT(wallet) DO UPDATE (`upsertHolder` in db.ts):
update the row with this primary key if present, insert otherwise. -/
def upsertHolder (hs : Holders) (w : String) (u : HolderUpdates) : Holders :=
  match getHolder hs w with
  | some _ => List.map (fun r => if r.wallet == w then applyUpdates r u else r) hs
  | none => hs ++ [applyUpdates (emptyHolderRow w) u]

/-- `updateHolderBalance` from db.ts: re-reads the stored row, classifies a
strict decrease against the caller-provided previous balance (absent
previous balance is treated as 0 by `previousBalanceRaw ? BigInt(...) :
BigInt(0)`), resets continuity state on a decrease, and upserts. -/
def updateHolderBalance (hs : Holders) (wallet : String) (balanceRaw : Nat)
    (checkTs : Int) (previousBalanceRaw : Option Nat) : Holders :=
  let holder := getHolder hs wallet
  let currentBalance := balanceRaw
  let prevBalance := previousBalanceRaw.getD 0
  let decreased := currentBalance < prevBalance
  let continuityStartTs0 := ((holder.bind (·.continuity_start_ts)).getD checkTs)
  let streakRounds0 := ((holder.map (·.streak_rounds)).getD 0)
  let twbScore0 := ((holder.map (·.twb_score)).getD 0)
  upsertHolder hs wallet
    { last_balance_raw := some (some balanceRaw)
      last_balance_check_ts := some (some checkTs)
      last_decrease_ts :=
        some (if decreased then some checkTs else holder.bind (·.last_decrease_ts))
      continuity_start_ts := some (some (if decreased then checkTs else continuityStartTs0))
      streak_rounds := some (if decreased then 0 else streakRounds0)
      twb_score := some (if decreased then 0 else twbScore0)
      last_seen_ts := some (some checkTs) }

/-- `incrementBuySol` from db.ts. -/
def incrementBuySol (hs : Holders) (wallet : String) (solAmount : Rat)
    (highConfidence : Bool) : Holders :=
  let holder := getHolder hs wallet
  if highConfidence then
    upsertHolder hs wallet
      { cumulative_buy_sol := some (((holder.map (·.cumulative_buy_sol)).getD 0) + solAmount) }
  else
    upsertHolder hs wallet
      { cumulative_buy_sol_low_confidence :=
          some (((holder.map (·.cumulative_buy_sol_low_confidence)).getD 0) + solAmount) }

/-- `updateStreakAndTwb` from db.ts (no-op when the wallet is unknown). -/
def updateStreakAndTwb (hs : Holders) (wallet : String) (tokenBalanceUi : Rat)
    (rewardIntervalSeconds : Rat) : Holders :=
  match getHolder hs wallet with
  | none => hs
  | some holder =>
      upsertHolder hs wallet
        { streak_rounds := some (holder.streak_rounds + 1)
          twb_score := some (holder.twb_score + tokenBalanceUi * (rewardIntervalSeconds / 3600)) }

/-- The balance update record `refreshHolderBalance` returns (balances.ts);
`previousBalanceRaw` is the stored balance read before the refresh. -/
structure BalanceUpdate where
  wallet : String
  balanceRaw : Nat
  previousBalanceRaw : Option Nat
  decreased : Bool
  deriving Repr, DecidableEq

/-- `refreshHolderBalance` from balances.ts for one holder, with the
freshly fetched on-chain balance supplied as `balanceRaw` (a non-existent
token account reads as 0 in the source). -/
def refreshHolderBalance (hs : Holders) (holder : HolderRow) (balanceRaw : Nat)
    (now : Int) : BalanceUpdate × Holders :=
  let previousBalanceRaw := holder.last_balance_raw
  let decreased := balanceRaw < previousBalanceRaw.getD 0
  ( { wallet := holder.wallet
      balanceRaw := balanceRaw
      previousBalanceRaw := previousBalanceRaw
      decreased := decreased },
    updateHolderBalance hs holder.wallet balanceRaw now previousBalanceRaw )

/-! ### Eligibility query (`getEligibleHolders` in db.ts). -/

/-- The WHERE clause of the eligibility query.  `CAST(last_balance_raw AS
INTEGER) > 0` on the canonical decimal strings the code stores is value
comparison, so it is rendered as `b > 0` on the numeric value. -/
def eligibleWhere (minAgeTs minContinuityTs : Int) (minCumulativeBuySol : Rat)
    (h : HolderRow) : Bool :=
  h.is_blacklisted == 0 &&
  (match h.first_seen_ts with
   | none => false
   | some fs => decide (fs ≤ minAgeTs)) &&
  (match h.continuity_start_ts with
   | none => false
   | some cs => decide (cs ≤ minContinuityTs)) &&
  decide (minCumulativeBuySol ≤ h.cumulative_buy_sol) &&
  (match h.last_balance_raw with
   | none => false
   | some b => decide (0 < b))

/-- `getEligibleHolders(minAgeDays, minContinuitySeconds,
minCumulativeBuySol)` from db.ts, with the query time `now` explicit. -/
def getEligibleHolders (hs : Holders) (now : Int) (minAgeDays : Int)
    (minContinuitySeconds : Int) (minCumulativeBuySol : Rat) : Holders :=
  let minAgeTs := now - minAgeDays * 24 * 60 * 60
  let minContinuityTs := now - minContinuitySeconds
  List.filter (eligibleWhere minAgeTs minContinuityTs minCumulativeBuySol) hs

/-! ### Rounds (`db.ts` table `rounds`).  `txs` is the decoded `txs_json`
list; `meta` stays an opaque JSON string. -/

structure RoundRow where
  round_id : String
  typ : String
  ts : Int
  txs : List String
  meta : String
  deriving Repr, DecidableEq

abbrev Rounds := List RoundRow

/-- `insertRound` from db.ts (plain INSERT; ids are fresh UUIDs so the
primary-key conflict path never fires). -/
def insertRound (rs : Rounds) (r : RoundRow) : Rounds :=
  rs ++ [r]

/-! ### Execution locks (`db.ts` table `execution_locks`). -/

structure ExecutionLockRow where
  lock_type : String
  acquired_ts : Int
  pid : Int
  deriving Repr, DecidableEq

abbrev Locks := List ExecutionLockRow

/-- `acquireLock`: the INSERT succeeds iff no row with this `lock_type`
exists (TEXT PRIMARY KEY); on a conflict the catch turns it into `false`. -/
def acquireLock (ls : Locks) (lockType : String) (now pid : Int) : Locks × Bool :=
  if (List.find? (fun r => r.lock_type == lockType) ls).isSome then
    (ls, false)
  else
    (ls ++ [{ lock_type := lockType, acquired_ts := now, pid := pid }], true)

/-- `releaseLock`: DELETE by key, idempotent. -/
def releaseLock (ls : Locks) (lockType : String) : Locks :=
  List.filter (fun r => !(r.lock_type == lockType)) ls

/-- `isLockHeld`. -/
def isLockHeld (ls : Locks) (lockType : String) : Bool :=
  (List.find? (fun r => r.lock_type == lockType) ls).isSome

/-- `clearStaleLocks`: DELETE WHERE acquired_ts < now − maxAge. -/
def clearStaleLocks (ls : Locks) (now maxAgeSeconds : Int) : Locks :=
  List.filter (fun r => !(decide (r.acquired_ts < now - maxAgeSeconds))) ls

/-! ### Bot state (`db.ts` table `bot_state`): heartbeat, safe mode, RPC
error counter.  Values are stored as strings, mirroring the TEXT column. -/

def HEARTBEAT_KEY : String := "heartbeat_ts"
def SAFE_MODE_KEY : String := "safe_mode"
def SAFE_MODE_REASON_KEY : String := "safe_mode_reason"
def RPC_ERROR_COUNT_KEY : String := "consecutive_rpc_errors"

def updateHeartbeat (bs : KV) (now : Int) : KV :=
  kvSet bs HEARTBEAT_KEY (toString now)

/-- `enterSafeMode` writes the entry timestamp under `safe_mode` and the
reason under `safe_mode_reason`. -/
def enterSafeMode (bs : KV) (now : Int) (reason : String) : KV :=
  kvSet (kvSet bs SAFE_MODE_KEY (toString now)) SAFE_MODE_REASON_KEY reason

/-- `exitSafeMode` deletes the safe-mode mark, its reason and the RPC
error counter. -/
def exitSafeMode (bs : KV) : KV :=
  kvDelete (kvDelete (kvDelete bs SAFE_MODE_KEY) SAFE_MODE_REASON_KEY) RPC_ERROR_COUNT_KEY

/-- `isSafeMode`: presence of the `safe_mode` key. -/
def isSafeMode (bs : KV) : Bool :=
  (kvGet bs SAFE_MODE_KEY).isSome

/-- `getRpcErrorCount`: `parseInt` of the stored decimal string, 0 when
absent. -/
def getRpcErrorCount (bs : KV) : Nat :=
  ((kvGet bs RPC_ERROR_COUNT_KEY).bind String.toNat?).getD 0

/-- `incrementRpcErrors`: store count+1, return the new count. -/
def incrementRpcErrors (bs : KV) : KV × Nat :=
  let newCount := getRpcErrorCount bs + 1
  (kvSet bs RPC_ERROR_COUNT_KEY (toString newCount), newCount)

/-- `resetRpcErrors`. -/
def resetRpcErrors (bs : KV) : KV :=
  kvDelete bs RPC_ERROR_COUNT_KEY

/-! ### The durable store as a whole. -/

structure DbState where
  holders : Holders
  rounds : Rounds
  locks : Locks
  botState : KV
  scanState : KV

/-! ### Execution engine (`execution.ts`, `executeWithLockAndTimeout`).

A job body is a state transformer that either returns normally, hits the
timeout/abort path, or throws with a message.  The engine gates on safe
mode, acquires the per-type lock, classifies the outcome, counts RPC-like
errors toward the safe-mode threshold, and always releases the lock. -/

inductive JobResult where
  | ok
  | timedOut
  | threw (msg : String)

inductive EngineOutcome where
  | skippedSafeMode
  | skippedLockHeld
  | succeeded
  | timedOut
  | failed (msg : String)
  deriving Repr, DecidableEq

/-- Whether `s` starts with `p` (helper for the `includes` check). -/
def charsStartWith : List Char → List Char → Bool
  | [], _ => true
  | _ :: _, [] => false
  | p :: ps, c :: cs => p == c && charsStartWith ps cs

/-- Whether `pat` occurs as a contiguous run in `s`. -/
def charsContain (s pat : List Char) : Bool :=
  match s with
  | [] => pat.isEmpty
  | _ :: rest => charsStartWith pat s || charsContain rest pat

/-- `String.prototype.includes`. -/
def jsIncludes (s pat : String) : Bool :=
  charsContain s.toList pat.toList

/-- The substring patterns of `execution.ts` that count as transient RPC
errors. -/
def isRpcError (msg : String) : Bool :=
  jsIncludes msg "503" || jsIncludes msg "429" || jsIncludes msg "timeout" ||
  jsIncludes msg "ECONNREFUSED" || jsIncludes msg "fetch failed"

/-- `executeWithLockAndTimeout`. -/
def executeWithLockAndTimeout (s : DbState) (lockType : String) (now pid : Int)
    (maxRpcErrorsBeforePause : Nat) (job : DbState → DbState × JobResult) :
    DbState × EngineOutcome :=
  if isSafeMode s.botState then
    (s, EngineOutcome.skippedSafeMode)
  else
    match acquireLock s.locks lockType now pid with
    | (_, false) => (s, EngineOutcome.skippedLockHeld)
    | (locks1, true) =>
        let s1 := { s with locks := locks1 }
        let (s2, r) := job s1
        let (s3, outcome) :=
          match r with
          | JobResult.ok =>
              ({ s2 with botState := resetRpcErrors s2.botState }, EngineOutcome.succeeded)
          | JobResult.timedOut => (s2, EngineOutcome.timedOut)
          | JobResult.threw msg =>
              if jsIncludes msg "aborted" then
                (s2, EngineOutcome.timedOut)
              else if isRpcError msg then
                let (bs1, errorCount) := incrementRpcErrors s2.botState
                let bs2 :=
                  if maxRpcErrorsBeforePause ≤ errorCount then
                    enterSafeMode bs1 now ("Consecutive RPC errors: " ++ toString errorCount)
                  else bs1
                ({ s2 with botState := bs2 }, EngineOutcome.failed msg)
              else
                (s2, EngineOutcome.failed msg)
        ({ s3 with locks := releaseLock s3.locks lockType }, outcome)

/-! ### Scanner (`scan.ts`).

Enriched transactions come from the indexer; the HTTP fetch is an oracle
parameter `fetch : Option String → Nat → List EnrichedTx` taking the
pagination token (`before`) and the batch limit.  Lamport quantities are
`Int` (`parseInt` results and `nativeBalanceChange`); the float divisions
by 1e9 / 10^decimals are carried exactly in `Rat`. -/

structure TokenTransfer where
  fromUserAccount : String
  toUserAccount : String
  tokenAmount : Rat
  mint : String
  deriving Repr, DecidableEq

structure NativeTransfer where
  fromUserAccount : String
  toUserAccount : String
  amount : Int
  deriving Repr, DecidableEq

structure RawTokenAmount where
  tokenAmount : Int
  decimals : Nat
  deriving Repr, DecidableEq

structure SwapTokenIO where
  userAccount : String
  mint : String
  rawTokenAmount : RawTokenAmount
  deriving Repr, DecidableEq

structure SwapEvent where
  nativeInputAmount : Option Int
  tokenOutputs : Option (List SwapTokenIO)
  deriving Repr, DecidableEq

structure TokenBalanceChange where
  userAccount : String
  mint : String
  rawTokenAmount : RawTokenAmount
  deriving Repr, DecidableEq

structure AccountData where
  account : String
  nativeBalanceChange : Int
  tokenBalanceChanges : List TokenBalanceChange
  deriving Repr, DecidableEq

structure EnrichedTx where
  signature : String
  timestamp : Int
  source : String
  tokenTransfers : List TokenTransfer
  nativeTransfers : List NativeTransfer
  eventsSwap : Option SwapEvent
  accountData : List AccountData
  deriving Repr, DecidableEq

structure DetectedBuy where
  wallet : String
  solSpent : Rat
  tokenReceived : Rat
  signature : String
  timestamp : Int
  confidence : String
  source : String
  deriving Repr, DecidableEq

/-- JavaScript truthiness of an optional string (undefined/empty ⇒ false). -/
def jsTruthy : Option String → Bool
  | none => false
  | some s => !(s == "")

/-- Method 1 (high confidence): parsed swap event with native input and a
token output on the tracked mint. -/
def detectBuysHigh (tx : EnrichedTx) (tokenMint : String) : List DetectedBuy :=
  match tx.eventsSwap with
  | none => []
  | some swap =>
      match swap.nativeInputAmount, swap.tokenOutputs with
      | some nativeAmount, some outs =>
          (List.filter (fun o => o.mint == tokenMint) outs).map fun tokenOut =>
            { wallet := tokenOut.userAccount
              solSpent := (nativeAmount : Rat) / 1000000000
              tokenReceived :=
                (tokenOut.rawTokenAmount.tokenAmount : Rat) / (10 ^ tokenOut.rawTokenAmount.decimals)
              signature := tx.signature
              timestamp := tx.timestamp
              confidence := "high"
              source := if tx.source == "" then "swap" else tx.source }
      | _, _ => []

/-- Method 2 (medium confidence): account-level SOL decrease with a token
increase on the mint, ignoring dust below 0.001 SOL. -/
def detectBuysMedium (tx : EnrichedTx) (tokenMint : String) : List DetectedBuy :=
  tx.accountData.foldr
    (fun account acc =>
      let solChange := account.nativeBalanceChange
      match List.find? (fun tc => tc.mint == tokenMint) account.tokenBalanceChanges with
      | some tokenChange =>
          if solChange < 0 ∧ 0 < tokenChange.rawTokenAmount.tokenAmount then
            let solSpent : Rat := ((|solChange| : Int) : Rat) / 1000000000
            if solSpent < 1 / 1000 then acc
            else
              { wallet := account.account
                solSpent := solSpent
                tokenReceived :=
                  (tokenChange.rawTokenAmount.tokenAmount : Rat) /
                    (10 ^ tokenChange.rawTokenAmount.decimals)
                signature := tx.signature
                timestamp := tx.timestamp
                confidence := "medium"
                source := if tx.source == "" then "balance_change" else tx.source } :: acc
          else acc
      | none => acc)
    []

/-- Method 3 (low confidence): positive token transfer on the mint
correlated with a positive native transfer out of the receiving wallet. -/
def detectBuysLow (tx : EnrichedTx) (tokenMint : String) : List DetectedBuy :=
  if tx.tokenTransfers.length > 0 ∧ tx.nativeTransfers.length > 0 then
    tx.tokenTransfers.foldr
      (fun tokenTx acc =>
        if tokenTx.mint == tokenMint && decide ((0 : Rat) < tokenTx.tokenAmount) then
          match List.find?
              (fun nt => nt.fromUserAccount == tokenTx.toUserAccount && decide (0 < nt.amount))
              tx.nativeTransfers with
          | some matchingNative =>
              { wallet := tokenTx.toUserAccount
                solSpent := (matchingNative.amount : Rat) / 1000000000
                tokenReceived := tokenTx.tokenAmount
                signature := tx.signature
                timestamp := tx.timestamp
                confidence := "low"
                source := "transfer_correlation" } :: acc
          | none => acc
        else acc)
      []
  else []

/-- `detectBuysFromTransaction`: first rule that yields events wins. -/
def detectBuysFromTransaction (tx : EnrichedTx) (tokenMint : String) : List DetectedBuy :=
  let high := detectBuysHigh tx tokenMint
  if high.length ≠ 0 then high
  else
    let medium := detectBuysMedium tx tokenMint
    if medium.length ≠ 0 then medium
    else detectBuysLow tx tokenMint

/-- Insertion-ordered deduplicating add (JS `Set` iteration order). -/
def addUnique (xs : List String) (x : String) : List String :=
  if xs.contains x then xs else xs ++ [x]

/-- `extractHoldersFromTransaction`: wallets on matching token transfers
plus accounts with a token balance change on the mint, deduplicated in
insertion order. -/
def extractHoldersFromTransaction (tx : EnrichedTx) (tokenMint : String) : List String :=
  let fromTransfers :=
    tx.tokenTransfers.foldl
      (fun acc transfer =>
        if transfer.mint == tokenMint then
          let acc1 := if jsTruthy (some transfer.toUserAccount) then
            addUnique acc transfer.toUserAccount else acc
          if jsTruthy (some transfer.fromUserAccount) then
            addUnique acc1 transfer.fromUserAccount else acc1
        else acc)
      []
  tx.accountData.foldl
    (fun acc account =>
      account.tokenBalanceChanges.foldl
        (fun acc2 tokenChange =>
          if tokenChange.mint == tokenMint then addUnique acc2 account.account else acc2)
        acc)
    fromTransfers

/-- Scan result record (`ScanResult` in scan.ts). -/
structure ScanResult where
  newHolders : List String
  buysDetected : List DetectedBuy
  transactionsProcessed : Nat
  lastSignature : Option String
  deriving Repr, DecidableEq

/-- The sub-state the scanner touches. -/
structure ScanDb where
  holders : Holders
  scanState : KV
  deriving Repr, DecidableEq

def SCAN_STATE_KEY : String := "last_processed_signature"
def SCAN_STATE_TIMESTAMP_KEY : String := "last_processed_timestamp"

/-- Per-transaction body of the scan loop: holder discovery (new wallets
inserted with `last_seen_ts`), buy detection and accumulation. -/
def scanProcessOneTx (db : ScanDb) (seen : List String) (res : ScanResult)
    (tokenMint : String) (tx : EnrichedTx) : ScanDb × List String × ScanResult :=
  let res :=
    if jsTruthy res.lastSignature then res
    else { res with lastSignature := some tx.signature }
  let txHolders := extractHoldersFromTransaction tx tokenMint
  let (db, seen, res) :=
    txHolders.foldl
      (fun (st : ScanDb × List String × ScanResult) holder =>
        let (db, seen, res) := st
        if seen.contains holder then (db, seen, res)
        else
          let seen := addUnique seen holder
          match getHolder db.holders holder with
          | some _ => (db, seen, res)
          | none =>
              let u : HolderUpdates := { last_seen_ts := some (some tx.timestamp) }
              ({ db with holders := upsertHolder db.holders holder u },
               seen,
               { res with newHolders := res.newHolders ++ [holder] }))
      (db, seen, res)
  let buys := detectBuysFromTransaction tx tokenMint
  let (db, res) :=
    buys.foldl
      (fun (st : ScanDb × ScanResult) buy =>
        let (db, res) := st
        ({ db with holders :=
             incrementBuySol db.holders buy.wallet buy.solSpent (buy.confidence == "high") },
         { res with buysDetected := res.buysDetected ++ [buy] }))
      (db, res)
  (db, seen, { res with transactionsProcessed := res.transactionsProcessed + 1 })

/-- Inner loop over one fetched batch; the `Bool` is the
`reachedLastProcessed` flag (stop as soon as the stored cursor shows up). -/
def scanProcessTxs (db : ScanDb) (seen : List String) (res : ScanResult)
    (tokenMint : String) (lastProcessedSig : Option String) :
    List EnrichedTx → ScanDb × List String × ScanResult × Bool
  | [] => (db, seen, res, false)
  | tx :: rest =>
      if jsTruthy lastProcessedSig && (some tx.signature == lastProcessedSig) then
        (db, seen, res, true)
      else
        let (db, seen, res) := scanProcessOneTx db seen res tokenMint tx
        scanProcessTxs db seen res tokenMint lastProcessedSig rest

/-- Outer pagination loop of `scanTokenActivity`, fuel-bounded; each
iteration fetches at most `min 100 (limit − totalFetched)` transactions
and the loop stops on an empty batch, on reaching the cursor, on a
missing pagination token, or once `limit` transactions were fetched. -/
def scanOuterLoop (fetch : Option String → Nat → List EnrichedTx) (tokenMint : String)
    (lastProcessedSig : Option String) (limit : Nat) :
    Nat → Nat → Option String → ScanDb → List String → ScanResult → ScanDb × ScanResult
  | 0, _, _, db, _, res => (db, res)
  | fuel + 1, totalFetched, paginationToken, db, seen, res =>
      if totalFetched < limit then
        let batchSize := min 100 (limit - totalFetched)
        let data := fetch paginationToken batchSize
        if data.length = 0 then (db, res)
        else
          let (db, seen, res, reached) :=
            scanProcessTxs db seen res tokenMint lastProcessedSig data
          if reached then (db, res)
          else
            let totalFetched := totalFetched + data.length
            let paginationToken :=
              if data.length = batchSize then (data.getLast?).map (·.signature) else none
            if !(jsTruthy paginationToken) then (db, res)
            else
              scanOuterLoop fetch tokenMint lastProcessedSig limit
                fuel totalFetched paginationToken db seen res
      else (db, res)

/-- `scanTokenActivity(limit, isBootstrap)`: read the cursor (unless
bootstrapping), run the loop, and persist the new cursor when one was
recorded.  `now` is the wall clock used for the cursor timestamp. -/
def scanTokenActivity (fetch : Option String → Nat → List EnrichedTx) (now : Int)
    (tokenMint : String) (limit : Nat) (isBootstrap : Bool) (db : ScanDb) :
    ScanDb × ScanResult :=
  let lastProcessedSig := if isBootstrap then none else kvGet db.scanState SCAN_STATE_KEY
  let res : ScanResult :=
    { newHolders := [], buysDetected := [], transactionsProcessed := 0, lastSignature := none }
  let (db, res) := scanOuterLoop fetch tokenMint lastProcessedSig limit
    (limit + 1) 0 none db [] res
  let db :=
    match res.lastSignature with
    | some sig =>
        if jsTruthy (some sig) then
          let ss := kvSet (kvSet db.scanState SCAN_STATE_KEY sig)
            SCAN_STATE_TIMESTAMP_KEY (toString now)
          { db with scanState := ss }
        else db
    | none => db
  (db, res)

/-! ### Scoring & lottery (`scoring.ts`).

JavaScript string iteration (`charCodeAt`) walks UTF-16 code units, so
the hash of `createSeed` is embedded over the UTF-16 code units of the
combined string.  The spec's reference definition (its §4.6 wording:
"over UTF-8 bytes … taken as a non-negative 32-bit integer") is embedded
separately for comparison. -/

/-- UTF-16 code units of one character (surrogate pair above U+FFFF). -/
def charUtf16 (c : Char) : List Nat :=
  let v := c.toNat
  if v < 65536 then [v]
  else [55296 + (v - 65536) / 1024, 56320 + (v - 65536) % 1024]

/-- UTF-16 code units of a string, the values `charCodeAt` yields. -/
def utf16Units (s : String) : List Nat :=
  (s.data.map charUtf16).flatten

/-- UTF-8 bytes of one character. -/
def charUtf8 (c : Char) : List Nat :=
  let v := c.toNat
  if v < 128 then [v]
  else if v < 2048 then [192 + v / 64, 128 + v % 64]
  else if v < 65536 then [224 + v / 4096, 128 + (v / 64) % 64, 128 + v % 64]
  else [240 + v / 262144, 128 + (v / 4096) % 64, 128 + (v / 64) % 64, 128 + v % 64]

/-- UTF-8 bytes of a string. -/
def utf8Bytes (s : String) : List Nat :=
  (s.data.map charUtf8).flatten

/-- JavaScript `ToInt32`: reduce to the signed 32-bit range. -/
def toInt32 (n : Int) : Int :=
  (n + 2147483648) % 4294967296 - 2147483648

/-- One iteration of the hash in `createSeed`:
`hash = ((hash << 5) - hash) + char; hash = hash & hash` — the shift
returns `ToInt32(hash * 32)`, the additions are exact, and `hash & hash`
applies `ToInt32` to the sum. -/
def jsHashStep (h : Int) (c : Nat) : Int :=
  toInt32 (toInt32 (h * 32) - h + c)

/-- The hash loop of `createSeed` over a unit sequence, starting at 0. -/
def jsHashUnits (units : List Nat) : Int :=
  units.foldl jsHashStep 0

/-- The combined seed input string `"timestamp-tokenMint-blockhash"`. -/
def seedInputString (timestamp : Nat) (tokenMint blockhash : String) : String :=
  toString timestamp ++ "-" ++ tokenMint ++ "-" ++ blockhash

/-- `createSeed` from scoring.ts: hash the UTF-16 code units of the
combined string, then `Math.abs`. -/
def createSeed (timestamp : Nat) (tokenMint blockhash : String) : Nat :=
  (jsHashUnits (utf16Units (seedInputString timestamp tokenMint blockhash))).natAbs

/-- Modelled from the spec, §4.6: one step `h := (h<<5) − h + c` of
`hash32` in wrap-around 32-bit arithmetic (value mod 2^32). -/
def specHashStep (h : Int) (c : Nat) : Int :=
  (h * 32 - h + c) % 4294967296

/-- Modelled from the spec, §4.6: the `hash32` loop in wrap-around 32-bit
arithmetic, taken as a non-negative 32-bit integer (the absolute value of
the signed 32-bit result). -/
def specHash32 (units : List Nat) : Nat :=
  (toInt32 (units.foldl specHashStep 0)).natAbs

/-- Modelled from the spec, §4.6: the reference seed, `hash32` over the
UTF-8 bytes of the combined string. -/
def specSeedUtf8 (timestamp : Nat) (tokenMint blockhash : String) : Nat :=
  specHash32 (utf8Bytes (seedInputString timestamp tokenMint blockhash))

/-- The reference seed over UTF-16 code units (the spec definition with
the encoding the code actually iterates). -/
def specSeedUtf16 (timestamp : Nat) (tokenMint blockhash : String) : Nat :=
  specHash32 (utf16Units (seedInputString timestamp tokenMint blockhash))

/-! #### Mulberry32 (`mulberry32` in scoring.ts).

The closure accumulator `seed += 0x6D2B79F5` is an exact float addition
for all realistically reachable magnitudes, carried here as `Nat`; every
bitwise operation in the body reduces its operand mod 2^32 first, so the
body is computed on the unsigned 32-bit view. -/

def U32 : Nat := 4294967296

def toUint32 (n : Nat) : Nat := n % U32

/-- One output of the Mulberry32 body on the (already bumped) accumulator:
a rational in `[0, 1)` with denominator 2^32. -/
def mulberryOut (acc : Nat) : Rat :=
  let t0 := toUint32 acc
  let t1 := toUint32 ((Nat.xor t0 (t0 >>> 15)) * (t0 ||| 1))
  let t2 := Nat.xor t1 (toUint32 (t1 + toUint32 ((Nat.xor t1 (t1 >>> 7)) * (t1 ||| 61))))
  ((Nat.xor t2 (t2 >>> 14) : Nat) : Rat) / (U32 : Rat)

/-- The additive constant 0x6D2B79F5. -/
def MULBERRY_INC : Nat := 1831565813

/-! #### Weighted selection without replacement (`selectWinners`). -/

structure EligibleHolder where
  wallet : String
  weight : Rat
  deriving Repr, DecidableEq

structure LotteryContext where
  seed : Nat
  seedTimestamp : Nat
  seedTokenMint : String
  seedBlockhash : String
  roundId : String
  deriving Repr, DecidableEq

def weightSum (l : List EligibleHolder) : Rat :=
  (l.map (·.weight)).sum

/-- The inner `for (j …) { cumulative += w; if (randomValue < cumulative)
break }` walk: index of the first strict prefix-sum exceedance, if any. -/
def findWinnerIdx (randomValue : Rat) (cumulative : Rat) :
    List EligibleHolder → Option Nat
  | [] => none
  | h :: t =>
      if randomValue < cumulative + h.weight then some 0
      else (findWinnerIdx randomValue (cumulative + h.weight) t).map (· + 1)

/-- The selection loop of `selectWinners`: bump the PRNG accumulator, draw
`randomValue = rng() · totalWeight`, pick the winner index (0 when the
walk never breaks, as in the source), remove it, repeat.  The fuel is the
precomputed `winnersCount`; the `none` branch of the lookup is
unreachable because the index is always in range. -/
def selectLoop (acc : Nat) (remaining : List EligibleHolder) :
    Nat → List EligibleHolder
  | 0 => []
  | fuel + 1 =>
      if weightSum remaining ≤ 0 then []
      else
        match remaining.get? ((findWinnerIdx
            (mulberryOut (acc + MULBERRY_INC) * weightSum remaining) 0 remaining).getD 0) with
        | none => []
        | some winner =>
            winner :: selectLoop (acc + MULBERRY_INC)
              (remaining.eraseIdx ((findWinnerIdx
                (mulberryOut (acc + MULBERRY_INC) * weightSum remaining) 0 remaining).getD 0))
              fuel

/-- `selectWinners(eligible, count, context)` from scoring.ts. -/
def selectWinners (eligible : List EligibleHolder) (count : Nat)
    (context : LotteryContext) : List EligibleHolder :=
  if eligible.length = 0 then []
  else
    let winnersCount := min count eligible.length
    selectLoop context.seed eligible winnersCount

/-! ### Buy job (`buys.ts`, `executeBuyRound`).

SOL amounts are `Rat`.  The treasury balance fetch may throw
(`Except.error`); `swapSolToToken` never throws (it catches internally and
returns a `SwapResult`), so it is a total oracle on the lamport amount. -/

structure BuyConfig where
  solFeeReserve : Rat
  minBuySol : Rat
  maxBuySolPerHour : Rat
  deriving Repr, DecidableEq

structure SwapResult where
  success : Bool
  signature : Option String
  error : Option String
  inAmountSol : Rat
  outAmountToken : Rat
  deriving Repr, DecidableEq

structure BuyRoundResult where
  roundId : String
  timestamp : Int
  treasurySolBalance : Rat
  spendableAmount : Rat
  actualBuyAmount : Rat
  swapResult : Option SwapResult
  skipped : Bool
  skipReason : Option String
  deriving Repr, DecidableEq

/-- JavaScript `Math.max` on rationals. -/
def jsMax (a b : Rat) : Rat := if a ≤ b then b else a

/-- JavaScript `Math.min` on rationals. -/
def jsMin (a b : Rat) : Rat := if a ≤ b then a else b

/-- `solToLamports` from token.ts: `Math.floor(sol * 1e9)`. -/
def solToLamports (sol : Rat) : Int :=
  Rat.floor (sol * 1000000000)

/-- The `txs_json` content of a buy round: `[signature]` when the swap
result carries a (truthy) signature, `[]` otherwise. -/
def buyTxs (sr : SwapResult) : List String :=
  if jsTruthy sr.signature then [sr.signature.getD ""] else []

/-- The buy round record inserted by `executeBuyRound` (meta is kept as
an opaque blob). -/
def buyRoundRecord (roundId : String) (ts : Int) (txs : List String) : RoundRow :=
  { round_id := roundId, typ := "buy", ts := ts, txs := txs, meta := "buy-meta" }

/-- `executeBuyRound`: balance → spendable → cap → minimum check → swap →
round insert.  The skip branch and the catch branch return without
touching the rounds table; the round insert happens exactly when the swap
call returned (successfully or not). -/
def executeBuyRound (cfg : BuyConfig) (roundId : String) (timestamp : Int)
    (balanceFetch : Except String Rat) (swap : Int → SwapResult) (rounds : Rounds) :
    BuyRoundResult × Rounds :=
  let base : BuyRoundResult :=
    { roundId := roundId
      timestamp := timestamp
      treasurySolBalance := 0
      spendableAmount := 0
      actualBuyAmount := 0
      swapResult := none
      skipped := false
      skipReason := none }
  match balanceFetch with
  | Except.error msg =>
      let caught : SwapResult :=
        { success := false
          signature := none
          error := some msg
          inAmountSol := base.actualBuyAmount
          outAmountToken := 0 }
      ({ base with swapResult := some caught }, rounds)
  | Except.ok solBalance =>
      let spendableAmount := jsMax 0 (solBalance - cfg.solFeeReserve)
      let actualBuyAmount := jsMin spendableAmount cfg.maxBuySolPerHour
      let r1 := { base with
        treasurySolBalance := solBalance
        spendableAmount := spendableAmount
        actualBuyAmount := actualBuyAmount }
      if actualBuyAmount < cfg.minBuySol then
        ({ r1 with skipped := true, skipReason := some "Insufficient balance" }, rounds)
      else
        let spendLamports := solToLamports actualBuyAmount
        let swapResult := swap spendLamports
        ({ r1 with swapResult := some swapResult },
         insertRound rounds (buyRoundRecord roundId timestamp (buyTxs swapResult)))

/-! ### Reward-round arithmetic (`rewards.ts`, `config.ts`).

`config.rewardTokenPercentBps` is capped at build time by
`Math.min(REWARD_TOKEN_PERCENT_BPS, MAX_REWARD_TOKEN_PERCENT_PER_ROUND)`;
`distributeRaw` and `perWinnerRaw` are BigInt divisions (truncation
toward zero = `Nat` division on non-negative values); each winner is sent
exactly one transfer instruction of `perWinnerRaw` raw units. -/

def cappedRewardBps (rewardTokenPercentBps maxRewardTokenPercentPerRound : Nat) : Nat :=
  min rewardTokenPercentBps maxRewardTokenPercentPerRound

def distributeRaw (treasuryBalanceRaw rewardTokenPercentBps : Nat) : Nat :=
  treasuryBalanceRaw * rewardTokenPercentBps / 10000

def perWinnerRaw (distribute winnersCount : Nat) : Nat :=
  distribute / winnersCount

/-- The raw amounts of the transfer instructions `executeTransfers` builds:
one `createTransferInstruction(..., amountRaw)` per winner (batching
into transactions of `maxSendsPerTx` does not change the amounts). -/
def attemptedTransferAmounts (winners : List String) (amountRaw : Nat) : List Nat :=
  winners.map fun _ => amountRaw

/-! ### Status server rate limiting (`status-server.ts`). -/

structure RateLimitEntry where
  count : Nat
  windowStart : Nat
  deriving Repr, DecidableEq

abbrev RateMap := List (String × RateLimitEntry)

def RATE_LIMIT_WINDOW_MS : Nat := 60000
def RATE_LIMIT_MAX_REQUESTS : Nat := 30

def rateMapSet (m : RateMap) (ip : String) (e : RateLimitEntry) : RateMap :=
  match m with
  | [] => [(ip, e)]
  | p :: rest => if p.1 == ip then (ip, e) :: rest else p :: rateMapSet rest ip e

/-- `checkRateLimit(ip)` at time `now` (ms): fresh or expired window ⇒
reset to count 1 and accept; count at the cap ⇒ reject; otherwise bump
and accept.  (`now − windowStart` underflows to 0 in `Nat` exactly when
the JS difference is negative, and neither exceeds the window.) -/
def checkRateLimit (m : RateMap) (ip : String) (now : Nat) : RateMap × Bool :=
  match (List.find? (fun p => p.1 == ip) m).map (·.2) with
  | none => (rateMapSet m ip { count := 1, windowStart := now }, true)
  | some entry =>
      if RATE_LIMIT_WINDOW_MS < now - entry.windowStart then
        (rateMapSet m ip { count := 1, windowStart := now }, true)
      else if RATE_LIMIT_MAX_REQUESTS ≤ entry.count then
        (m, false)
      else
        (rateMapSet m ip { entry with count := entry.count + 1 }, true)

structure HttpRequest where
  method : String
  url : String
  ip : String
  now : Nat
  deriving Repr, DecidableEq

/-- The observable part of a response: status code, and the
`retryAfterSeconds` field of the 429 body. -/
structure HttpResponse where
  status : Nat
  retryAfterSeconds : Option Nat
  deriving Repr, DecidableEq

/-- The request handler of `startStatusServer`: 405 for other methods,
204 for OPTIONS, then the rate limit (429 with `retryAfterSeconds: 60`),
then 404 for other paths, else the 200 status projection. -/
def handleRequest (m : RateMap) (req : HttpRequest) : RateMap × HttpResponse :=
  if !(req.method == "GET") && !(req.method == "OPTIONS") then
    (m, { status := 405, retryAfterSeconds := none })
  else if req.method == "OPTIONS" then
    (m, { status := 204, retryAfterSeconds := none })
  else
    match checkRateLimit m req.ip req.now with
    | (m1, false) => (m1, { status := 429, retryAfterSeconds := some 60 })
    | (m1, true) =>
        if !(req.url == "/status") then (m1, { status := 404, retryAfterSeconds := none })
        else (m1, { status := 200, retryAfterSeconds := none })

/-- Serve a request sequence, returning the response trace. -/
def serveAll (m : RateMap) : List HttpRequest → RateMap × List HttpResponse
  | [] => (m, [])
  | r :: rs =>
      let (m1, resp) := handleRequest m r
      let (m2, resps) := serveAll m1 rs
      (m2, resp :: resps)

/-! ### System operations.

Every store-touching operation the running system performs, as one step
relation on `DbState`; used to state latching of the safe-mode flag.
`opExitSafeMode` is the explicit `--exit-safe-mode` operator action. -/

inductive SysOp where
  | opEnterSafeMode (now : Int) (reason : String)
  | opExitSafeMode
  | opUpdateHeartbeat (now : Int)
  | opAcquireLock (lockType : String) (now pid : Int)
  | opReleaseLock (lockType : String)
  | opClearStaleLocks (now maxAge : Int)
  | opIncrementRpcErrors
  | opResetRpcErrors
  | opUpsertHolder (w : String) (u : HolderUpdates)
  | opUpdateHolderBalance (w : String) (bal : Nat) (ts : Int) (prev : Option Nat)
  | opIncrementBuySol (w : String) (amt : Rat) (hi : Bool)
  | opUpdateStreakAndTwb (w : String) (bal : Rat) (interval : Rat)
  | opInsertRound (r : RoundRow)
  | opSetScanState (k v : String)
  | opScan (fetch : Option String → Nat → List EnrichedTx) (now : Int) (mint : String)
      (limit : Nat) (isBootstrap : Bool)
  | opEngine (lockType : String) (now pid : Int) (maxErr : Nat)
      (job : DbState → DbState × JobResult)

def applyOp (s : DbState) : SysOp → DbState
  | SysOp.opEnterSafeMode now reason => { s with botState := enterSafeMode s.botState now reason }
  | SysOp.opExitSafeMode => { s with botState := exitSafeMode s.botState }
  | SysOp.opUpdateHeartbeat now => { s with botState := updateHeartbeat s.botState now }
  | SysOp.opAcquireLock lt now pid => { s with locks := (acquireLock s.locks lt now pid).1 }
  | SysOp.opReleaseLock lt => { s with locks := releaseLock s.locks lt }
  | SysOp.opClearStaleLocks now maxAge => { s with locks := clearStaleLocks s.locks now maxAge }
  | SysOp.opIncrementRpcErrors => { s with botState := (incrementRpcErrors s.botState).1 }
  | SysOp.opResetRpcErrors => { s with botState := resetRpcErrors s.botState }
  | SysOp.opUpsertHolder w u => { s with holders := upsertHolder s.holders w u }
  | SysOp.opUpdateHolderBalance w bal ts prev =>
      { s with holders := updateHolderBalance s.holders w bal ts prev }
  | SysOp.opIncrementBuySol w amt hi => { s with holders := incrementBuySol s.holders w amt hi }
  | SysOp.opUpdateStreakAndTwb w bal interval =>
      { s with holders := updateStreakAndTwb s.holders w bal interval }
  | SysOp.opInsertRound r => { s with rounds := insertRound s.rounds r }
  | SysOp.opSetScanState k v => { s with scanState := kvSet s.scanState k v }
  | SysOp.opScan fetch now mint limit isBootstrap =>
      let (sd, _) := scanTokenActivity fetch now mint limit isBootstrap
        { holders := s.holders, scanState := s.scanState }
      { s with holders := sd.holders, scanState := sd.scanState }
  | SysOp.opEngine lt now pid maxErr job =>
      (executeWithLockAndTimeout s lt now pid maxErr job).1

def applyOps (s : DbState) (ops : List SysOp) : DbState :=
  ops.foldl applyOp s

/-! ## Helper lemmas -/

theorem sum_map_const {α : Type} (l : List α) (c : Nat) :
    (l.map fun _ => c).sum = l.length * c := by
  induction l with
  | nil => simp
  | cons a t ih => simp [ih, Nat.succ_mul, Nat.add_comm]

/-! ## C2: the eligibility query -/

/-- C2: a holder is returned by the eligibility query iff it is stored,
not blacklisted, has a non-null `first_seen_ts ≤ now − minAge` and
non-null `continuity_start_ts ≤ now − minContinuity`, has
`cumulative_buy_sol ≥ minBuy`, and has a non-null `last_balance_raw`
strictly greater than 0; the low-confidence column plays no role. -/
theorem eligibility_query_iff (hs : Holders) (h : HolderRow)
    (now minAgeDays minContinuitySeconds : Int) (minBuy : Rat) :
    (h ∈ getEligibleHolders hs now minAgeDays minContinuitySeconds minBuy ↔
      h ∈ hs ∧ h.is_blacklisted = 0 ∧
      (∃ fs, h.first_seen_ts = some fs ∧ fs ≤ now - minAgeDays * 86400) ∧
      (∃ cs, h.continuity_start_ts = some cs ∧ cs ≤ now - minContinuitySeconds) ∧
      minBuy ≤ h.cumulative_buy_sol ∧
      (∃ b, h.last_balance_raw = some b ∧ 0 < b)) ∧
    (∀ v, eligibleWhere (now - minAgeDays * 24 * 60 * 60) (now - minContinuitySeconds) minBuy
        { h with cumulative_buy_sol_low_confidence := v } =
      eligibleWhere (now - minAgeDays * 24 * 60 * 60) (now - minContinuitySeconds) minBuy h) := by
  have harith : minAgeDays * 24 * 60 * 60 = minAgeDays * 86400 := by ring
  constructor
  · simp only [getEligibleHolders, List.mem_filter, eligibleWhere, Bool.and_eq_true,
      beq_iff_eq, decide_eq_true_eq, harith]
    cases hfs : h.first_seen_ts <;> cases hcs : h.continuity_start_ts <;>
      cases hb : h.last_balance_raw <;> (simp; try tauto)
  · intro v
    rfl

/-! ## C6: reward distribution arithmetic -/

/-- C6: with a non-empty winner set, `distributeRaw` is the treasury
balance times the capped basis points over 10000 in truncating integer
arithmetic, `perWinnerRaw` is its integer division by the winner count,
`perWinner · winners ≤ distributeRaw`, the attempted transfer amounts sum
to at most `distributeRaw`, and the residual is under one raw unit per
winner. -/
theorem reward_distribution_conservation (treasuryBalanceRaw envBps envMaxBps : Nat)
    (winners : List String) (hw : winners ≠ []) :
    distributeRaw treasuryBalanceRaw (cappedRewardBps envBps envMaxBps) =
      treasuryBalanceRaw * min envBps envMaxBps / 10000 ∧
    perWinnerRaw (distributeRaw treasuryBalanceRaw (cappedRewardBps envBps envMaxBps))
        winners.length =
      distributeRaw treasuryBalanceRaw (cappedRewardBps envBps envMaxBps) / winners.length ∧
    perWinnerRaw (distributeRaw treasuryBalanceRaw (cappedRewardBps envBps envMaxBps))
        winners.length * winners.length ≤
      distributeRaw treasuryBalanceRaw (cappedRewardBps envBps envMaxBps) ∧
    (attemptedTransferAmounts winners
        (perWinnerRaw (distributeRaw treasuryBalanceRaw (cappedRewardBps envBps envMaxBps))
          winners.length)).sum ≤
      distributeRaw treasuryBalanceRaw (cappedRewardBps envBps envMaxBps) ∧
    distributeRaw treasuryBalanceRaw (cappedRewardBps envBps envMaxBps) -
        perWinnerRaw (distributeRaw treasuryBalanceRaw (cappedRewardBps envBps envMaxBps))
          winners.length * winners.length <
      winners.length := by
  have hn : 0 < winners.length := List.length_pos.mpr hw
  set d := distributeRaw treasuryBalanceRaw (cappedRewardBps envBps envMaxBps) with hd
  have hdm := Nat.div_add_mod d winners.length
  have hmlt := Nat.mod_lt d hn
  have hle : d / winners.length * winners.length ≤ d := Nat.div_mul_le_self d winners.length
  refine ⟨rfl, rfl, hle, ?_, ?_⟩
  · rw [attemptedTransferAmounts, sum_map_const, perWinnerRaw, Nat.mul_comm]
    exact hle
  · rw [perWinnerRaw, Nat.mul_comm, ← Nat.mod_def]
    exact hmlt

/-- C6 witness: the conservation facts at a concrete round (treasury
1234567 raw units, 90% requested, 30% cap, three winners). -/
theorem reward_distribution_conservation_witness :
    distributeRaw 1234567 (cappedRewardBps 9000 3000) =
      1234567 * min 9000 3000 / 10000 ∧
    perWinnerRaw (distributeRaw 1234567 (cappedRewardBps 9000 3000))
        (["w1", "w2", "w3"] : List String).length =
      distributeRaw 1234567 (cappedRewardBps 9000 3000) /
        (["w1", "w2", "w3"] : List String).length ∧
    perWinnerRaw (distributeRaw 1234567 (cappedRewardBps 9000 3000))
        (["w1", "w2", "w3"] : List String).length *
        (["w1", "w2", "w3"] : List String).length ≤
      distributeRaw 1234567 (cappedRewardBps 9000 3000) ∧
    (attemptedTransferAmounts ["w1", "w2", "w3"]
        (perWinnerRaw (distributeRaw 1234567 (cappedRewardBps 9000 3000))
          (["w1", "w2", "w3"] : List String).length)).sum ≤
      distributeRaw 1234567 (cappedRewardBps 9000 3000) ∧
    distributeRaw 1234567 (cappedRewardBps 9000 3000) -
        perWinnerRaw (distributeRaw 1234567 (cappedRewardBps 9000 3000))
          (["w1", "w2", "w3"] : List String).length *
          (["w1", "w2", "w3"] : List String).length <
      (["w1", "w2", "w3"] : List String).length :=
  reward_distribution_conservation 1234567 9000 3000 ["w1", "w2", "w3"] (by decide)

/-! ## C4: the lottery seed -/

theorem toInt32_congr (a b : Int) (h : a % 4294967296 = b % 4294967296) :
    toInt32 a = toInt32 b := by
  unfold toInt32
  omega

theorem toInt32_emod (a : Int) : toInt32 a % 4294967296 = a % 4294967296 := by
  unfold toInt32
  omega

theorem jsHashStep_eq_spec (hs : Int) (c : Nat) :
    jsHashStep (toInt32 hs) c = toInt32 (specHashStep hs c) := by
  unfold jsHashStep specHashStep
  apply toInt32_congr
  have h1 := toInt32_emod (toInt32 hs * 32)
  have h2 := toInt32_emod hs
  unfold toInt32 at *
  omega

theorem foldl_jsHashStep_eq_spec (units : List Nat) (hs : Int) :
    units.foldl jsHashStep (toInt32 hs) = toInt32 (units.foldl specHashStep hs) := by
  induction units generalizing hs with
  | nil => rfl
  | cons c rest ih =>
      simp only [List.foldl_cons, jsHashStep_eq_spec]
      exact ih (specHashStep hs c)

/-- C4 counterexample: on the non-ASCII token mint `"é"` the seed the
code computes (over UTF-16 code units, `charCodeAt`) differs from the
spec's reference value over UTF-8 bytes. -/
theorem createSeed_utf8_counterexample :
    createSeed 0 "é" "" ≠ specSeedUtf8 0 "é" "" := by decide

/-- C4 amended: for every timestamp, token mint and blockhash,
`createSeed` equals the reference definition — iterate `h := (h<<5) − h +
c` in wrap-around 32-bit arithmetic over the UTF-16 code units (the
`charCodeAt` values) of `"<timestamp>-<tokenMint>-<blockhash>"`, taking
the result as a non-negative 32-bit integer. -/
theorem createSeed_eq_spec_utf16 (timestamp : Nat) (tokenMint blockhash : String) :
    createSeed timestamp tokenMint blockhash = specSeedUtf16 timestamp tokenMint blockhash := by
  unfold createSeed specSeedUtf16 specHash32 jsHashUnits
  have h0 : (0 : Int) = toInt32 0 := by decide
  rw [h0, foldl_jsHashStep_eq_spec, ← h0]

/-! ## C1: buy-round record insertion -/

/-- The default buy limits of config.ts: 0.03 SOL fee reserve, 0.01 SOL
minimum buy, 0.2 SOL hourly cap. -/
def defaultBuyCfg : BuyConfig :=
  { solFeeReserve := 3 / 100, minBuySol := 1 / 100, maxBuySolPerHour := 1 / 5 }

/-- A swap oracle that always succeeds with a signature. -/
def okSwap : Int → SwapResult :=
  fun _ => { success := true, signature := some "sig", error := none,
             inAmountSol := 0, outAmountToken := 0 }

/-- C1 counterexample: with the default limits and a treasury balance of
0.035 SOL the invocation skips at the minimum-buy predicate and returns
with the rounds table untouched — no `type=buy` record is inserted. -/
theorem buy_round_skip_inserts_nothing :
    (executeBuyRound defaultBuyCfg "r1" 100 (Except.ok (7 / 200)) okSwap []).1.skipped = true ∧
    (executeBuyRound defaultBuyCfg "r1" 100 (Except.ok (7 / 200)) okSwap []).2 = [] := by
  have h : jsMin (jsMax 0 ((7 : Rat) / 200 - defaultBuyCfg.solFeeReserve))
      defaultBuyCfg.maxBuySolPerHour < defaultBuyCfg.minBuySol := by
    norm_num [jsMin, jsMax, defaultBuyCfg]
  constructor
  · simp only [executeBuyRound]
    rw [if_pos h]
  · simp only [executeBuyRound]
    rw [if_pos h]

/-- C1 amended: a round record with `type=buy`, `ts = jobStart` and `txs
= [signature]` (or `[]` without a signature) is inserted exactly by the
invocations that pass the minimum-buy predicate and reach the swap call;
invocations that skip at the minimum-buy predicate, or whose balance
fetch throws, return with the rounds table unchanged. -/
theorem executeBuyRound_records (cfg : BuyConfig) (roundId : String) (ts : Int)
    (solBalance : Rat) (swap : Int → SwapResult) (rounds : Rounds) (msg : String) :
    (¬ jsMin (jsMax 0 (solBalance - cfg.solFeeReserve)) cfg.maxBuySolPerHour < cfg.minBuySol →
      (executeBuyRound cfg roundId ts (Except.ok solBalance) swap rounds).2 =
        rounds ++ [buyRoundRecord roundId ts (buyTxs (swap (solToLamports
          (jsMin (jsMax 0 (solBalance - cfg.solFeeReserve)) cfg.maxBuySolPerHour))))]) ∧
    (jsMin (jsMax 0 (solBalance - cfg.solFeeReserve)) cfg.maxBuySolPerHour < cfg.minBuySol →
      (executeBuyRound cfg roundId ts (Except.ok solBalance) swap rounds).2 = rounds ∧
      (executeBuyRound cfg roundId ts (Except.ok solBalance) swap rounds).1.skipped = true) ∧
    (executeBuyRound cfg roundId ts (Except.error msg) swap rounds).2 = rounds := by
  refine ⟨?_, ?_, rfl⟩
  · intro h
    simp only [executeBuyRound, insertRound]
    rw [if_neg h]
  · intro h
    simp only [executeBuyRound]
    rw [if_pos h]
    exact ⟨rfl, rfl⟩

/-- C1 witness: with balance 10 SOL the capped buy of 0.2 SOL passes the
minimum and a round with the swap signature is inserted; with balance
0.035 SOL the minimum-buy skip leaves the table unchanged. -/
theorem executeBuyRound_records_witness :
    (executeBuyRound defaultBuyCfg "r2" 100 (Except.ok 10) okSwap []).2 =
      [] ++ [buyRoundRecord "r2" 100 (buyTxs (okSwap (solToLamports
        (jsMin (jsMax 0 (10 - defaultBuyCfg.solFeeReserve)) defaultBuyCfg.maxBuySolPerHour))))] ∧
    (executeBuyRound defaultBuyCfg "r3" 100 (Except.ok (7 / 200)) okSwap []).2 = [] ∧
    (executeBuyRound defaultBuyCfg "r3" 100 (Except.ok (7 / 200)) okSwap []).1.skipped = true :=
  ⟨(executeBuyRound_records defaultBuyCfg "r2" 100 10 okSwap [] "e").1
     (by norm_num [jsMin, jsMax, defaultBuyCfg]),
   ((executeBuyRound_records defaultBuyCfg "r3" 100 (7 / 200) okSwap [] "e").2.1
     (by norm_num [jsMin, jsMax, defaultBuyCfg])).1,
   ((executeBuyRound_records defaultBuyCfg "r3" 100 (7 / 200) okSwap [] "e").2.1
     (by norm_num [jsMin, jsMax, defaultBuyCfg])).2⟩

/-! ## C5 / C10: the balance refresher -/

theorem applyUpdates_wallet (r : HolderRow) (u : HolderUpdates) :
    (applyUpdates r u).wallet = r.wallet := rfl

theorem find?_map_upsert (l : Holders) (w : String) (u : HolderUpdates) (r : HolderRow)
    (h : List.find? (fun x => x.wallet == w) l = some r) :
    List.find? (fun x => x.wallet == w)
      (l.map fun x => if x.wallet == w then applyUpdates x u else x) =
      some (applyUpdates r u) := by
  induction l with
  | nil => exact absurd h (by simp)
  | cons a t ih =>
      cases hw : (a.wallet == w) with
      | false =>
          rw [List.find?_cons_of_neg _ (by simp [hw])] at h
          simp only [List.map_cons, hw, if_neg, Bool.false_eq_true, not_false_eq_true]
          rw [List.find?_cons_of_neg _ (by simp [hw])]
          exact ih h
      | true =>
          rw [List.find?_cons_of_pos _ (by simp [hw])] at h
          obtain rfl : a = r := by injection h
          simp only [List.map_cons, hw, if_pos]
          rw [List.find?_cons_of_pos _ (by simp [applyUpdates_wallet, hw])]

theorem find?_append_of_none {α : Type} (p : α → Bool) (l1 l2 : List α)
    (h : List.find? p l1 = none) :
    List.find? p (l1 ++ l2) = List.find? p l2 := by
  induction l1 with
  | nil => rfl
  | cons a t ih =>
      cases hp : p a with
      | false =>
          rw [List.find?_cons_of_neg _ (by simp [hp])] at h
          rw [List.cons_append, List.find?_cons_of_neg _ (by simp [hp])]
          exact ih h
      | true => rw [List.find?_cons_of_pos _ hp] at h; cases h

theorem getHolder_upsert_some (hs : Holders) (w : String) (u : HolderUpdates) (r : HolderRow)
    (h : getHolder hs w = some r) :
    getHolder (upsertHolder hs w u) w = some (applyUpdates r u) := by
  unfold upsertHolder
  rw [h]
  exact find?_map_upsert hs w u r h

theorem getHolder_upsert_none (hs : Holders) (w : String) (u : HolderUpdates)
    (h : getHolder hs w = none) :
    getHolder (upsertHolder hs w u) w = some (applyUpdates (emptyHolderRow w) u) := by
  unfold upsertHolder
  rw [h]
  unfold getHolder at h ⊢
  rw [find?_append_of_none _ _ _ h]
  rw [List.find?_cons_of_pos _ (by simp [applyUpdates_wallet, emptyHolderRow])]

/-- A stored holder with a non-null balance of 5 but a NULL
`continuity_start_ts` (the state every scanner-discovered wallet is in
before its first refresh). -/
def cexRow : HolderRow :=
  { wallet := "w"
    first_seen_ts := some 1
    last_seen_ts := some 1
    last_balance_raw := some 5
    last_balance_check_ts := some 1
    last_decrease_ts := none
    continuity_start_ts := none
    streak_rounds := 2
    twb_score := 3
    cumulative_buy_sol := 1
    cumulative_buy_sol_low_confidence := 0
    is_blacklisted := 0 }

/-- C5 counterexample: refreshing `cexRow` with an unchanged balance of 5
at time 777 is not a decrease, yet `continuity_start_ts` changes from
NULL to 777 — it is not left unchanged. -/
theorem continuity_initialized_without_decrease :
    (refreshHolderBalance [cexRow] cexRow 5 777).1.decreased = false ∧
    cexRow.continuity_start_ts = none ∧
    ((getHolder (refreshHolderBalance [cexRow] cexRow 5 777).2 "w").map
      (·.continuity_start_ts)) = some (some 777) := by
  decide

/-- C5 amended: on a strict decrease the refresher sets
`continuity_start_ts` and `last_decrease_ts` to the check time and zeroes
`streak_rounds` and `twb_score`; in every case it writes
`last_balance_raw`, `last_balance_check_ts` and `last_seen_ts`; with no
strict decrease `streak_rounds`, `twb_score` and `last_decrease_ts` are
unchanged and `continuity_start_ts` is unchanged when non-null but
initialized to the check time when null. -/
theorem refreshHolderBalance_spec (hs : Holders) (h : HolderRow) (bal : Nat) (now : Int)
    (hmem : getHolder hs h.wallet = some h) :
    (refreshHolderBalance hs h bal now).1.decreased =
      decide (bal < h.last_balance_raw.getD 0) ∧
    ∃ h', getHolder (refreshHolderBalance hs h bal now).2 h.wallet = some h' ∧
      h'.last_balance_raw = some bal ∧
      h'.last_balance_check_ts = some now ∧
      h'.last_seen_ts = some now ∧
      (bal < h.last_balance_raw.getD 0 →
        h'.continuity_start_ts = some now ∧ h'.last_decrease_ts = some now ∧
        h'.streak_rounds = 0 ∧ h'.twb_score = 0) ∧
      (¬ bal < h.last_balance_raw.getD 0 →
        h'.streak_rounds = h.streak_rounds ∧ h'.twb_score = h.twb_score ∧
        h'.last_decrease_ts = h.last_decrease_ts ∧
        h'.continuity_start_ts = some (h.continuity_start_ts.getD now)) := by
  refine ⟨rfl, ?_⟩
  simp only [refreshHolderBalance, updateHolderBalance, hmem]
  refine ⟨_, getHolder_upsert_some hs h.wallet _ h hmem, ?_⟩
  by_cases hdec : bal < h.last_balance_raw.getD 0 <;>
    simp [applyUpdates, hdec]

/-- C10: for a wallet with no stored row or a NULL stored balance, the
refresh treats the previous balance as zero, never classifies a decrease,
keeps `streak_rounds`, `twb_score` and `last_decrease_ts` at their prior
(default) values, and initializes a NULL `continuity_start_ts` to the
check time. -/
theorem first_balance_observation (hs : Holders) (w : String) (bal : Nat) (now : Int)
    (hprev : (getHolder hs w).bind (·.last_balance_raw) = none) :
    decide (bal < ((getHolder hs w).bind (·.last_balance_raw)).getD 0) = false ∧
    ∃ h', getHolder
        (updateHolderBalance hs w bal now ((getHolder hs w).bind (·.last_balance_raw))) w =
        some h' ∧
      h'.streak_rounds = ((getHolder hs w).map (·.streak_rounds)).getD 0 ∧
      h'.twb_score = ((getHolder hs w).map (·.twb_score)).getD 0 ∧
      h'.last_decrease_ts = (getHolder hs w).bind (·.last_decrease_ts) ∧
      h'.continuity_start_ts = some (((getHolder hs w).bind (·.continuity_start_ts)).getD now) ∧
      ((getHolder hs w).bind (·.continuity_start_ts) = none →
        h'.continuity_start_ts = some now) ∧
      h'.last_balance_raw = some bal ∧
      h'.last_balance_check_ts = some now ∧
      h'.last_seen_ts = some now := by
  constructor
  · rw [hprev]
    simp
  · cases hh : getHolder hs w with
    | none =>
        simp only [updateHolderBalance, hh]
        refine ⟨_, getHolder_upsert_none hs w _ hh, ?_⟩
        simp [applyUpdates, emptyHolderRow]
    | some r =>
        have hrb : r.last_balance_raw = none := by
          rw [hh] at hprev
          exact hprev
        simp only [updateHolderBalance, hh]
        refine ⟨_, getHolder_upsert_some hs w _ r hh, ?_⟩
        simp [applyUpdates, hh, hrb]
        intro hcn
        simp [hcn]

/-- C10 witness: a wallet with no stored row, refreshed with balance 10
at time 50. -/
theorem first_balance_observation_witness :
    decide ((10 : Nat) < ((getHolder [] "w").bind (·.last_balance_raw)).getD 0) = false ∧
    ∃ h', getHolder
        (updateHolderBalance [] "w" 10 50 ((getHolder [] "w").bind (·.last_balance_raw))) "w" =
        some h' ∧
      h'.streak_rounds = ((getHolder [] "w").map (·.streak_rounds)).getD 0 ∧
      h'.twb_score = ((getHolder [] "w").map (·.twb_score)).getD 0 ∧
      h'.last_decrease_ts = (getHolder [] "w").bind (·.last_decrease_ts) ∧
      h'.continuity_start_ts = some (((getHolder [] "w").bind (·.continuity_start_ts)).getD 50) ∧
      ((getHolder [] "w").bind (·.continuity_start_ts) = none →
        h'.continuity_start_ts = some 50) ∧
      h'.last_balance_raw = some 10 ∧
      h'.last_balance_check_ts = some 50 ∧
      h'.last_seen_ts = some 50 :=
  first_balance_observation [] "w" 10 50 (by decide)

/-- C5 witness: `cexRow` stored alone; a refresh with the dropped balance
4 at time 777 hits the decrease branch, a refresh with the unchanged
balance 5 hits the no-decrease branch. -/
theorem refreshHolderBalance_spec_witness :
    ((refreshHolderBalance [cexRow] cexRow 4 777).1.decreased =
      decide ((4 : Nat) < cexRow.last_balance_raw.getD 0) ∧
    ∃ h', getHolder (refreshHolderBalance [cexRow] cexRow 4 777).2 cexRow.wallet = some h' ∧
      h'.last_balance_raw = some 4 ∧
      h'.last_balance_check_ts = some 777 ∧
      h'.last_seen_ts = some 777 ∧
      ((4 : Nat) < cexRow.last_balance_raw.getD 0 →
        h'.continuity_start_ts = some 777 ∧ h'.last_decrease_ts = some 777 ∧
        h'.streak_rounds = 0 ∧ h'.twb_score = 0) ∧
      (¬ (4 : Nat) < cexRow.last_balance_raw.getD 0 →
        h'.streak_rounds = cexRow.streak_rounds ∧ h'.twb_score = cexRow.twb_score ∧
        h'.last_decrease_ts = cexRow.last_decrease_ts ∧
        h'.continuity_start_ts = some (cexRow.continuity_start_ts.getD 777))) ∧
    ((refreshHolderBalance [cexRow] cexRow 5 777).1.decreased =
      decide ((5 : Nat) < cexRow.last_balance_raw.getD 0) ∧
    ∃ h', getHolder (refreshHolderBalance [cexRow] cexRow 5 777).2 cexRow.wallet = some h' ∧
      h'.last_balance_raw = some 5 ∧
      h'.last_balance_check_ts = some 777 ∧
      h'.last_seen_ts = some 777 ∧
      ((5 : Nat) < cexRow.last_balance_raw.getD 0 →
        h'.continuity_start_ts = some 777 ∧ h'.last_decrease_ts = some 777 ∧
        h'.streak_rounds = 0 ∧ h'.twb_score = 0) ∧
      (¬ (5 : Nat) < cexRow.last_balance_raw.getD 0 →
        h'.streak_rounds = cexRow.streak_rounds ∧ h'.twb_score = cexRow.twb_score ∧
        h'.last_decrease_ts = cexRow.last_decrease_ts ∧
        h'.continuity_start_ts = some (cexRow.continuity_start_ts.getD 777))) :=
  ⟨refreshHolderBalance_spec [cexRow] cexRow 4 777 (by decide),
   refreshHolderBalance_spec [cexRow] cexRow 5 777 (by decide)⟩

/-! ## C9: status-server rate limiting -/

/-- A burst crossing a window boundary: one request at 0 ms (anchoring
the window), 29 at 59999 ms, 30 at 60001 ms (expired window ⇒ reset). -/
def cexRequests : List HttpRequest :=
  [{ method := "GET", url := "/status", ip := "ip", now := 0 }] ++
  List.replicate 29 { method := "GET", url := "/status", ip := "ip", now := 59999 } ++
  List.replicate 30 { method := "GET", url := "/status", ip := "ip", now := 60001 }

/-- C9 counterexample: the limiter is a fixed window anchored at the
first request, not sliding — the 2 ms interval [59999, 60001] (well
inside one 60 s window) contains 59 successful 200 responses for one IP,
far above 30; in particular the 31st request inside that window is not
rejected. -/
theorem rate_limit_burst_counterexample :
    (List.zip cexRequests (serveAll [] cexRequests).2).countP
        (fun p => decide (59999 ≤ p.1.now) && decide (p.1.now ≤ 60001) &&
          (p.2.status == 200)) = 59 ∧
    60001 - 59999 ≤ RATE_LIMIT_WINDOW_MS ∧
    RATE_LIMIT_MAX_REQUESTS < 59 := by
  decide

/-- Requests inside one window (no reset) from a state where the IP's
entry is `⟨c, t0⟩`: exactly `min ts.length (30 − c)` more requests
succeed, and every rejected one gets the 429 / retryAfterSeconds 60
response. -/
theorem serveAll_within_window (ip : String) (t0 : Nat) (c : Nat) (hc : 1 ≤ c)
    (ts : List Nat) (hts : ∀ t ∈ ts, t - t0 ≤ RATE_LIMIT_WINDOW_MS) :
    ((serveAll [(ip, { count := c, windowStart := t0 })]
        (ts.map (fun t => { method := "GET", url := "/status", ip := ip, now := t }))).2.countP
      (fun resp => resp.status == 200)) = min ts.length (RATE_LIMIT_MAX_REQUESTS - c) ∧
    ∀ resp ∈ (serveAll [(ip, { count := c, windowStart := t0 })]
        (ts.map (fun t => { method := "GET", url := "/status", ip := ip, now := t }))).2,
      resp.status = 200 ∨ resp = { status := 429, retryAfterSeconds := some 60 } := by
  induction ts generalizing c with
  | nil => simp [serveAll]
  | cons t rest ih =>
      have hwin : ¬ (RATE_LIMIT_WINDOW_MS < t - t0) := by
        have := hts t (by simp)
        omega
      have hrest : ∀ u ∈ rest, u - t0 ≤ RATE_LIMIT_WINDOW_MS := by
        intro u hu
        exact hts u (by simp [hu])
      by_cases hcap : RATE_LIMIT_MAX_REQUESTS ≤ c
      · have hstep : handleRequest [(ip, { count := c, windowStart := t0 })]
            { method := "GET", url := "/status", ip := ip, now := t } =
            ([(ip, { count := c, windowStart := t0 })],
             { status := 429, retryAfterSeconds := some 60 }) := by
          simp [handleRequest, checkRateLimit, hwin, hcap]
        obtain ⟨ihc, ihm⟩ := ih c hc hrest
        constructor
        · simp only [List.map_cons, serveAll, hstep, List.countP_cons]
          rw [ihc]
          simp
          omega
        · intro resp hresp
          simp only [List.map_cons, serveAll, hstep, List.mem_cons] at hresp
          rcases hresp with h | h
          · right
            exact h
          · exact ihm resp h
      · have hset : rateMapSet [(ip, { count := c, windowStart := t0 })] ip
            { count := c + 1, windowStart := t0 } =
            [(ip, { count := c + 1, windowStart := t0 })] := by
          simp [rateMapSet]
        have hstep : handleRequest [(ip, { count := c, windowStart := t0 })]
            { method := "GET", url := "/status", ip := ip, now := t } =
            ([(ip, { count := c + 1, windowStart := t0 })],
             { status := 200, retryAfterSeconds := none }) := by
          simp [handleRequest, checkRateLimit, hwin, hcap, hset]
        obtain ⟨ihc, ihm⟩ := ih (c + 1) (by omega) hrest
        constructor
        · simp only [List.map_cons, serveAll, hstep, List.countP_cons]
          rw [ihc]
          simp [RATE_LIMIT_MAX_REQUESTS] at hcap ⊢
          omega
        · intro resp hresp
          simp only [List.map_cons, serveAll, hstep, List.mem_cons] at hresp
          rcases hresp with h | h
          · left
            rw [h]
          · exact ihm resp h

/-- C9 amended: per-IP limiting is a fixed 60 s window anchored at the
first request after expiry, not a sliding window.  Starting from an
empty limiter, for any burst `t0 :: ts` of GET `/status` requests of one
IP that stays within 60000 ms of `t0`, exactly `min (|ts|+1) 30`
requests receive 200, and every over-limit request receives 429 with
body field `retryAfterSeconds = 60`.  (Across a window reset the
60-second-interval bound of the original claim fails, see the
counterexample.) -/
theorem rate_limit_fixed_window (ip : String) (t0 : Nat) (ts : List Nat)
    (hts : ∀ t ∈ ts, t - t0 ≤ RATE_LIMIT_WINDOW_MS) :
    ((serveAll []
        ((t0 :: ts).map (fun t => { method := "GET", url := "/status", ip := ip, now := t }))).2.countP
      (fun resp => resp.status == 200)) = min (ts.length + 1) RATE_LIMIT_MAX_REQUESTS ∧
    ∀ resp ∈ (serveAll []
        ((t0 :: ts).map (fun t => { method := "GET", url := "/status", ip := ip, now := t }))).2,
      resp.status = 200 ∨ resp = { status := 429, retryAfterSeconds := some 60 } := by
  have hstep : handleRequest []
      { method := "GET", url := "/status", ip := ip, now := t0 } =
      ([(ip, { count := 1, windowStart := t0 })],
       { status := 200, retryAfterSeconds := none }) := by
    simp [handleRequest, checkRateLimit, rateMapSet]
  obtain ⟨hc, hm⟩ := serveAll_within_window ip t0 1 (by omega) ts hts
  constructor
  · simp only [List.map_cons, serveAll, hstep, List.countP_cons]
    rw [hc]
    simp [RATE_LIMIT_MAX_REQUESTS]
    omega
  · intro resp hresp
    simp only [List.map_cons, serveAll, hstep, List.mem_cons] at hresp
    rcases hresp with h | h
    · left
      rw [h]
    · exact hm resp h

/-- C9 witness: 32 requests of one IP inside a single window; exactly 30
get 200 and the rest get the 429 / 60 s body. -/
theorem rate_limit_fixed_window_witness :
    ((serveAll []
        ((0 :: List.replicate 31 40000).map
          (fun t => { method := "GET", url := "/status", ip := "a", now := t }))).2.countP
      (fun resp => resp.status == 200)) =
      min ((List.replicate 31 40000).length + 1) RATE_LIMIT_MAX_REQUESTS ∧
    ∀ resp ∈ (serveAll []
        ((0 :: List.replicate 31 40000).map
          (fun t => { method := "GET", url := "/status", ip := "a", now := t }))).2,
      resp.status = 200 ∨ resp = { status := 429, retryAfterSeconds := some 60 } :=
  rate_limit_fixed_window "a" 0 (List.replicate 31 40000) (by decide)

/-! ## C8: idempotent scan cursor -/

/-- C8: when the indexer's first transaction is the stored cursor (no new
data), an incremental scan finishes with the store untouched — the cursor
still reads the same signature, zero buys are detected, and every
holder's row (in particular both cumulative buy columns) is unchanged. -/
theorem incremental_scan_idempotent (fetch : Option String → Nat → List EnrichedTx)
    (now : Int) (mint : String) (limit : Nat) (db : ScanDb) (sig : String)
    (hcur : kvGet db.scanState SCAN_STATE_KEY = some sig)
    (hsig : ¬ sig = "")
    (hhead : ∀ tx ∈ (fetch none (min 100 limit)).head?, tx.signature = sig) :
    scanTokenActivity fetch now mint limit false db =
      (db, { newHolders := [], buysDetected := [], transactionsProcessed := 0,
             lastSignature := none }) ∧
    kvGet (scanTokenActivity fetch now mint limit false db).1.scanState SCAN_STATE_KEY =
      some sig ∧
    (scanTokenActivity fetch now mint limit false db).2.buysDetected = [] ∧
    (scanTokenActivity fetch now mint limit false db).1.holders = db.holders := by
  have hmain : scanTokenActivity fetch now mint limit false db =
      (db, { newHolders := [], buysDetected := [], transactionsProcessed := 0,
             lastSignature := none }) := by
    rcases Nat.eq_zero_or_pos limit with hl | hl
    · subst hl
      simp [scanTokenActivity, scanOuterLoop]
    · cases hdata : fetch none (min 100 limit) with
      | nil =>
          simp [scanTokenActivity, scanOuterLoop, hl, hdata]
      | cons tx rest =>
          have htx : tx.signature = sig := hhead tx (by simp [hdata])
          have hjst : jsTruthy (some sig) = true := by simp [jsTruthy, hsig]
          simp [scanTokenActivity, scanOuterLoop, hcur, hl, hdata, scanProcessTxs,
            htx, hjst]
  refine ⟨hmain, ?_, ?_, ?_⟩
  all_goals rw [hmain]
  all_goals simpa using hcur

/-- An enriched transaction carrying only the cursor signature. -/
def cexTx : EnrichedTx :=
  { signature := "A", timestamp := 1, source := "", tokenTransfers := [],
    nativeTransfers := [], eventsSwap := none, accountData := [] }

/-- C8 witness: a store whose cursor is `"A"` and an indexer whose first
(and only) transaction is `"A"`. -/
theorem incremental_scan_idempotent_witness :
    scanTokenActivity (fun _ _ => [cexTx]) 9 "M" 5 false
        { holders := [], scanState := [(SCAN_STATE_KEY, "A")] } =
      ({ holders := [], scanState := [(SCAN_STATE_KEY, "A")] },
       { newHolders := [], buysDetected := [], transactionsProcessed := 0,
         lastSignature := none }) ∧
    kvGet (scanTokenActivity (fun _ _ => [cexTx]) 9 "M" 5 false
        { holders := [], scanState := [(SCAN_STATE_KEY, "A")] }).1.scanState
      SCAN_STATE_KEY = some "A" ∧
    (scanTokenActivity (fun _ _ => [cexTx]) 9 "M" 5 false
        { holders := [], scanState := [(SCAN_STATE_KEY, "A")] }).2.buysDetected = [] ∧
    (scanTokenActivity (fun _ _ => [cexTx]) 9 "M" 5 false
        { holders := [], scanState := [(SCAN_STATE_KEY, "A")] }).1.holders = [] :=
  incremental_scan_idempotent (fun _ _ => [cexTx]) 9 "M" 5
    { holders := [], scanState := [(SCAN_STATE_KEY, "A")] } "A"
    (by decide) (by decide)
    (by intro tx htx; simp at htx; subst htx; rfl)

/-! ## C7: safe-mode latching -/

theorem kvGet_kvSet (m : KV) (k v : String) : kvGet (kvSet m k v) k = some v := by
  induction m with
  | nil => simp [kvSet, kvGet]
  | cons p rest ih =>
      cases hp : (p.1 == k) with
      | true => simp [kvSet, hp, kvGet]
      | false =>
          simp only [kvSet, hp, Bool.false_eq_true, if_false]
          simpa [kvGet, List.find?, hp] using ih

theorem kvGet_kvSet_ne (m : KV) (k v k' : String) (h : ¬ k' = k) :
    kvGet (kvSet m k v) k' = kvGet m k' := by
  have hkk : (k == k') = false := by
    simp
    intro hk
    exact h hk.symm
  induction m with
  | nil => simp [kvSet, kvGet, List.find?, hkk]
  | cons p rest ih =>
      cases hp : (p.1 == k) with
      | true =>
          have hpk : (p.1 == k') = false := by
            simp at hp ⊢
            rw [hp]
            intro hk
            exact h hk.symm
          simp [kvSet, hp, kvGet, List.find?, hkk, hpk]
      | false =>
          simp only [kvSet, hp, Bool.false_eq_true, if_false]
          cases hpk : (p.1 == k') with
          | true => simp [kvGet, List.find?, hpk]
          | false =>
              simp only [kvGet, List.find?, hpk] at ih ⊢
              exact ih

theorem kvGet_kvDelete_ne (m : KV) (k k' : String) (h : ¬ k' = k) :
    kvGet (kvDelete m k) k' = kvGet m k' := by
  induction m with
  | nil => rfl
  | cons p rest ih =>
      cases hp : (p.1 == k) with
      | true =>
          have hpk : (p.1 == k') = false := by
            simp at hp ⊢
            rw [hp]
            intro hk
            exact h hk.symm
          simp [kvDelete, hp, kvGet, List.find?, hpk] at ih ⊢
          exact ih
      | false =>
          cases hpk : (p.1 == k') with
          | true => simp [kvDelete, hp, kvGet, List.find?, hpk]
          | false =>
              simp only [kvDelete, List.filter, hp, Bool.not_false] at ih ⊢
              simp only [kvGet, List.find?, hpk] at ih ⊢
              exact ih

theorem isSafeMode_enterSafeMode (bs : KV) (now : Int) (reason : String) :
    isSafeMode (enterSafeMode bs now reason) = true := by
  unfold isSafeMode enterSafeMode
  rw [kvGet_kvSet_ne _ _ _ _ (by decide), kvGet_kvSet]
  rfl

/-- While the safe-mode key is latched, the execution engine returns the
skipped outcome and leaves the store untouched, for every job body. -/
theorem engine_skips_in_safe_mode (s : DbState) (lockType : String) (now pid : Int)
    (maxErr : Nat) (job : DbState → DbState × JobResult)
    (hs : isSafeMode s.botState = true) :
    executeWithLockAndTimeout s lockType now pid maxErr job =
      (s, EngineOutcome.skippedSafeMode) := by
  simp [executeWithLockAndTimeout, hs]

theorem isSafeMode_applyOp (s : DbState) (op : SysOp) (hop : ¬ op = SysOp.opExitSafeMode)
    (hs : isSafeMode s.botState = true) :
    isSafeMode (applyOp s op).botState = true := by
  cases op with
  | opEnterSafeMode now reason => exact isSafeMode_enterSafeMode _ now reason
  | opExitSafeMode => exact absurd rfl hop
  | opUpdateHeartbeat now =>
      simp only [applyOp, updateHeartbeat, isSafeMode] at hs ⊢
      rw [kvGet_kvSet_ne _ _ _ _ (by decide)]
      exact hs
  | opIncrementRpcErrors =>
      simp only [applyOp, incrementRpcErrors, isSafeMode] at hs ⊢
      rw [kvGet_kvSet_ne _ _ _ _ (by decide)]
      exact hs
  | opResetRpcErrors =>
      simp only [applyOp, resetRpcErrors, isSafeMode] at hs ⊢
      rw [kvGet_kvDelete_ne _ _ _ (by decide)]
      exact hs
  | opAcquireLock lt now pid => exact hs
  | opReleaseLock lt => exact hs
  | opClearStaleLocks now maxAge => exact hs
  | opUpsertHolder w u => exact hs
  | opUpdateHolderBalance w bal ts prev => exact hs
  | opIncrementBuySol w amt hi => exact hs
  | opUpdateStreakAndTwb w bal interval => exact hs
  | opInsertRound r => exact hs
  | opSetScanState k v => exact hs
  | opScan fetch now mint limit isBootstrap => exact hs
  | opEngine lt now pid maxErr job =>
      simp only [applyOp]
      rw [engine_skips_in_safe_mode s lt now pid maxErr job hs]
      exact hs

theorem isSafeMode_applyOps (s : DbState) (ops : List SysOp)
    (hops : ∀ op ∈ ops, ¬ op = SysOp.opExitSafeMode)
    (hs : isSafeMode s.botState = true) :
    isSafeMode (applyOps s ops).botState = true := by
  induction ops generalizing s with
  | nil => exact hs
  | cons op rest ih =>
      exact ih (applyOp s op) (fun o ho => hops o (by simp [ho]))
        (isSafeMode_applyOp s op (hops op (by simp)) hs)

/-- C7: safe mode is latching — after `enterSafeMode` runs, `isSafeMode`
reads true and stays true across every subsequent system operation
(scans, holder writes, buy/reward rounds, heartbeats, lock
acquire/release, RPC-error counting, engine invocations) as long as
`exitSafeMode` is not invoked; and while latched, every invocation of the
execution engine returns the skipped outcome without running the job
body or changing the store. -/
theorem safe_mode_latching (s : DbState) (now : Int) (reason : String) (ops : List SysOp)
    (hops : ∀ op ∈ ops, ¬ op = SysOp.opExitSafeMode) :
    isSafeMode (applyOps (applyOp s (SysOp.opEnterSafeMode now reason)) ops).botState = true ∧
    ∀ (lockType : String) (n pid : Int) (maxErr : Nat) (job : DbState → DbState × JobResult),
      executeWithLockAndTimeout (applyOps (applyOp s (SysOp.opEnterSafeMode now reason)) ops)
          lockType n pid maxErr job =
        (applyOps (applyOp s (SysOp.opEnterSafeMode now reason)) ops,
         EngineOutcome.skippedSafeMode) := by
  have hlatched : isSafeMode
      (applyOps (applyOp s (SysOp.opEnterSafeMode now reason)) ops).botState = true :=
    isSafeMode_applyOps _ ops hops (isSafeMode_enterSafeMode s.botState now reason)
  exact ⟨hlatched, fun lt n pid maxErr job =>
    engine_skips_in_safe_mode _ lt n pid maxErr job hlatched⟩

/-- The empty store. -/
def emptyDb : DbState :=
  { holders := [], rounds := [], locks := [], botState := [], scanState := [] }

/-- C7 witness: enter safe mode on the empty store, run a heartbeat, an
RPC-error increment and an engine invocation; the flag stays latched and
a further engine call is skipped with the store unchanged. -/
theorem safe_mode_latching_witness :
    isSafeMode (applyOps (applyOp emptyDb (SysOp.opEnterSafeMode 7 "rpc"))
      [SysOp.opUpdateHeartbeat 8, SysOp.opIncrementRpcErrors,
       SysOp.opEngine "buy_job" 9 1 3 (fun st => (st, JobResult.ok))]).botState = true ∧
    executeWithLockAndTimeout
        (applyOps (applyOp emptyDb (SysOp.opEnterSafeMode 7 "rpc"))
          [SysOp.opUpdateHeartbeat 8, SysOp.opIncrementRpcErrors,
           SysOp.opEngine "buy_job" 9 1 3 (fun st => (st, JobResult.ok))])
        "reward_job" 10 1 3 (fun st => (st, JobResult.ok)) =
      (applyOps (applyOp emptyDb (SysOp.opEnterSafeMode 7 "rpc"))
        [SysOp.opUpdateHeartbeat 8, SysOp.opIncrementRpcErrors,
         SysOp.opEngine "buy_job" 9 1 3 (fun st => (st, JobResult.ok))],
       EngineOutcome.skippedSafeMode) := by
  have h := safe_mode_latching emptyDb 7 "rpc"
    [SysOp.opUpdateHeartbeat 8, SysOp.opIncrementRpcErrors,
     SysOp.opEngine "buy_job" 9 1 3 (fun st => (st, JobResult.ok))]
    (by
      intro op hop
      simp only [List.mem_cons, List.not_mem_nil, or_false] at hop
      rcases hop with h | h | h
      all_goals (subst h; intro hc; cases hc))
  exact ⟨h.1, h.2 "reward_job" 10 1 3 (fun st => (st, JobResult.ok))⟩

/-! ## C3: lottery determinism and without-replacement selection -/

theorem findWinnerIdx_lt_length (rv : Rat) :
    ∀ (l : List EligibleHolder) (cum : Rat) (j : Nat),
      findWinnerIdx rv cum l = some j → j < l.length := by
  intro l
  induction l with
  | nil => intro cum j h; cases h
  | cons a t ih =>
      intro cum j h
      unfold findWinnerIdx at h
      by_cases hc : rv < cum + a.weight
      · rw [if_pos hc] at h
        simp at h
        subst h
        simp
      · rw [if_neg hc] at h
        cases hf : findWinnerIdx rv (cum + a.weight) t with
        | none => rw [hf] at h; cases h
        | some j' =>
            rw [hf] at h
            simp at h
            subst h
            have := ih (cum + a.weight) j' hf
            simp
            omega

theorem perm_get_eraseIdx :
    ∀ (l : List EligibleHolder) (j : Nat) (h : j < l.length),
      l.Perm (l.get ⟨j, h⟩ :: l.eraseIdx j) := by
  intro l
  induction l with
  | nil => intro j h; exact absurd h (Nat.not_lt_zero j)
  | cons a t ih =>
      intro j h
      cases j with
      | zero => simp [List.eraseIdx]
      | succ j' =>
          have hj : j' < t.length := by simpa using h
          exact (List.Perm.cons a (ih j' hj)).trans (List.Perm.swap _ _ _)

theorem selectLoop_spec (fuel : Nat) (acc : Nat) (rem : List EligibleHolder) :
    ∃ rest, ((selectLoop acc rem fuel) ++ rest).Perm rem ∧
      ((selectLoop acc rem fuel).length = min fuel rem.length ∨ weightSum rest ≤ 0) := by
  induction fuel generalizing acc rem with
  | zero => exact ⟨rem, by simp [selectLoop], Or.inl (by simp [selectLoop])⟩
  | succ fuel ih =>
      by_cases hW : weightSum rem ≤ 0
      · refine ⟨rem, ?_, Or.inr hW⟩
        simp [selectLoop, hW]
      · cases hrem : rem with
        | nil =>
            subst hrem
            simp [weightSum] at hW
        | cons a t =>
            subst hrem
            have hidx : (findWinnerIdx
                (mulberryOut (acc + MULBERRY_INC) * weightSum (a :: t)) 0 (a :: t)).getD 0 <
                (a :: t).length := by
              cases hf : findWinnerIdx
                  (mulberryOut (acc + MULBERRY_INC) * weightSum (a :: t)) 0 (a :: t) with
              | none => simp
              | some j =>
                  simpa using findWinnerIdx_lt_length _ (a :: t) 0 j hf
            have hget := List.get?_eq_get hidx
            have hbody : selectLoop acc (a :: t) (fuel + 1) =
                (a :: t).get ⟨_, hidx⟩ ::
                  selectLoop (acc + MULBERRY_INC)
                    ((a :: t).eraseIdx ((findWinnerIdx
                      (mulberryOut (acc + MULBERRY_INC) * weightSum (a :: t)) 0 (a :: t)).getD 0))
                    fuel := by
              conv_lhs => unfold selectLoop
              rw [if_neg hW, hget]
            obtain ⟨rest, hperm, hlen⟩ := ih (acc + MULBERRY_INC)
              ((a :: t).eraseIdx ((findWinnerIdx
                (mulberryOut (acc + MULBERRY_INC) * weightSum (a :: t)) 0 (a :: t)).getD 0))
            have hP := perm_get_eraseIdx (a :: t) _ hidx
            refine ⟨rest, ?_, ?_⟩
            · rw [hbody]
              exact (List.Perm.cons _ hperm).trans hP.symm
            · rcases hlen with hlen | hlen
              · left
                rw [hbody]
                simp only [List.length_cons, hlen]
                rw [List.length_eraseIdx_of_lt hidx]
                simp only [List.length_cons]
                omega
              · exact Or.inr hlen

/-- C3: `selectWinners` is deterministic in `(eligible, count, seed)` —
two contexts with the same seed give identical ordered winner lists — and
each winner list is a without-replacement sub-selection of the eligible
list (the winners plus a remainder permute the eligible list) whose
length is `min count |eligible|` unless the remaining total weight
reached ≤ 0 first. -/
theorem selectWinners_deterministic (eligible : List EligibleHolder) (count : Nat)
    (ctx ctx' : LotteryContext) (hseed : ctx.seed = ctx'.seed) :
    selectWinners eligible count ctx = selectWinners eligible count ctx' ∧
    ∃ rest, ((selectWinners eligible count ctx) ++ rest).Perm eligible ∧
      ((selectWinners eligible count ctx).length = min count eligible.length ∨
       weightSum rest ≤ 0) := by
  constructor
  · unfold selectWinners
    rw [hseed]
  · unfold selectWinners
    by_cases he : eligible.length = 0
    · rw [if_pos he]
      refine ⟨eligible, by simp, Or.inl ?_⟩
      rw [he]
      simp
    · rw [if_neg he]
      obtain ⟨rest, hp, hl⟩ := selectLoop_spec (min count eligible.length) ctx.seed eligible
      refine ⟨rest, hp, ?_⟩
      rcases hl with hl | hl
      · left
        rw [hl, Nat.min_assoc, Nat.min_self]
      · exact Or.inr hl

/-- C3 witness: two contexts sharing seed 42 over a two-holder eligible
list with count 1. -/
theorem selectWinners_deterministic_witness :
    selectWinners [{ wallet := "a", weight := 1 }, { wallet := "b", weight := 2 }] 1
        { seed := 42, seedTimestamp := 1000, seedTokenMint := "M", seedBlockhash := "B",
          roundId := "r1" } =
      selectWinners [{ wallet := "a", weight := 1 }, { wallet := "b", weight := 2 }] 1
        { seed := 42, seedTimestamp := 2000, seedTokenMint := "M", seedBlockhash := "B2",
          roundId := "r2" } ∧
    ∃ rest, ((selectWinners [{ wallet := "a", weight := 1 }, { wallet := "b", weight := 2 }] 1
        { seed := 42, seedTimestamp := 1000, seedTokenMint := "M", seedBlockhash := "B",
          roundId := "r1" }) ++ rest).Perm
        [{ wallet := "a", weight := 1 }, { wallet := "b", weight := 2 }] ∧
      ((selectWinners [{ wallet := "a", weight := 1 }, { wallet := "b", weight := 2 }] 1
          { seed := 42, seedTimestamp := 1000, seedTokenMint := "M", seedBlockhash := "B",
            roundId := "r1" }).length =
        min 1 ([{ wallet := "a", weight := 1 }, { wallet := "b", weight := 2 }] :
          List EligibleHolder).length ∨
       weightSum rest ≤ 0) :=
  selectWinners_deterministic
    [{ wallet := "a", weight := 1 }, { wallet := "b", weight := 2 }] 1
    { seed := 42, seedTimestamp := 1000, seedTokenMint := "M", seedBlockhash := "B",
      roundId := "r1" }
    { seed := 42, seedTimestamp := 2000, seedTokenMint := "M", seedBlockhash := "B2",
      roundId := "r2" }
    rfl

end PreMayhem
